import Mathlib

/-!
Shallow embedding of the training-orchestration loop of `src/train.py`
(repository Anysub/SIGIRSubmission).

The embedded fragments are:
  * the best-result / tolerance update performed after an evaluation round
    (train.py lines 278-289),
  * the log-interval gate around the evaluation round (line 271),
  * the early-stopping epoch loop (lines 220-223),
  * the cosine warm-restart period bookkeeping (lines 215-218 and 262-268),
  * the `evaluate` function (lines 50-61).

Python floats (validation accuracy and summed loss) are modelled as rationals:
every claim under study is about order comparisons and control flow, not about
rounding.  The `val_metric` / `test_metric` dictionaries are abstracted to the
single `accuracy` field that the control logic reads; the best-result snapshot
keeps the fields the comparison logic writes (epoch, val_loss, val accuracy).
-/

namespace TrainPy

/-- One evaluation round's observable outcome, as consumed by the control
logic at train.py line 278: the summed validation loss returned by `evaluate`
and the `accuracy` entry of the validation metric dictionary. -/
structure EvalRound where
  acc : ℚ
  loss : ℚ
  deriving Repr, DecidableEq

/-- The best-result record built at train.py lines 282-287
(`json.dumps({"epoch": .., "val_loss": .., ..})`), restricted to the fields
the control logic writes from its own state. -/
structure Snapshot where
  epoch : Nat
  val_loss : ℚ
  val_acc : ℚ
  deriving Repr, DecidableEq

/-- The mutable early-stopping / model-selection state of the main loop,
initialised at train.py lines 210-213. -/
structure TrainState where
  tolerance : Nat
  best_val_loss : ℚ
  best_val_acc : ℚ
  best_result : Option Snapshot
  deriving Repr, DecidableEq

/-- train.py lines 210-213: `tolerance = 0`, `best_val_loss = 100000`,
`best_val_acc = 0`, `best_result = None`. -/
def initState : TrainState := ⟨0, 100000, 0, none⟩

/-- The improvement condition of train.py line 278:
`val_metric['accuracy'] > best_val_acc or
 (val_metric['accuracy'] == best_val_acc and loss < best_val_loss)`. -/
def improves (val_acc loss best_val_acc best_val_loss : ℚ) : Prop :=
  best_val_acc < val_acc ∨ (val_acc = best_val_acc ∧ loss < best_val_loss)

instance improvesDecidable (a l ba bl : ℚ) : Decidable (improves a l ba bl) := by
  unfold improves
  infer_instance

/-- train.py lines 278-289: on improvement reset `tolerance`, record the new
best loss/accuracy and rebuild `best_result`; otherwise `tolerance += 1`. -/
def evalUpdate (epoch : Nat) (val_acc loss : ℚ) (s : TrainState) : TrainState :=
  if improves val_acc loss s.best_val_acc s.best_val_loss then
    { tolerance := 0
      best_val_loss := loss
      best_val_acc := val_acc
      best_result := some ⟨epoch, loss, val_acc⟩ }
  else
    { s with tolerance := s.tolerance + 1 }

/-- train.py line 271: the evaluation round runs only when
`epoch % args.log_interval == 0`; otherwise the round is skipped and the
state is untouched.  `evalF` stands for the pair of `evaluate` calls at lines
273-276, supplying the round's validation accuracy and summed loss.  The
second component records, for the trace of the run, whether the round
happened and whether it improved on the stored best. -/
def epochEval (evalF : Nat → EvalRound) (log_interval : Nat) (epoch : Nat)
    (s : TrainState) : TrainState × List Bool :=
  if epoch % log_interval = 0 then
    let r := evalF epoch
    (evalUpdate epoch r.acc r.loss s,
     [decide (improves r.acc r.loss s.best_val_acc s.best_val_loss)])
  else
    (s, [])

/-- train.py lines 220-223 and 271-289: the epoch loop.  `fuel` is the number
of epochs still allowed by `range(args.epochs)`, `epoch` the current index.
At the start of each epoch the loop breaks when `tolerance > args.tolerance`.
Returns the final state, the number of epochs actually executed, and the
improvement flag of every evaluation round in order. -/
def runAux (evalF : Nat → EvalRound) (log_interval tol_limit : Nat) :
    Nat → Nat → TrainState → TrainState × Nat × List Bool
  | 0, _, s => (s, 0, [])
  | fuel + 1, epoch, s =>
    if tol_limit < s.tolerance then (s, 0, [])
    else
      let p := epochEval evalF log_interval epoch s
      let r := runAux evalF log_interval tol_limit fuel (epoch + 1) p.1
      (r.1, r.2.1 + 1, p.2 ++ r.2.2)

/-- The whole run: `for epoch in range(epochs)` from the initial state. -/
def run (evalF : Nat → EvalRound) (log_interval tol_limit epochs : Nat) :
    TrainState × Nat × List Bool :=
  runAux evalF log_interval tol_limit epochs 0 initState

/-- train.py line 301: after the loop the program prints `best_result`
(still `None` when no round ever improved on the sentinel). -/
def finalOutput (r : TrainState × Nat × List Bool) : Option Snapshot :=
  r.1.best_result

/-- The cosine warm-restart bookkeeping state, train.py lines 216-218:
`Ti = 1`, `mult = 2`, `Tcur = 0`. -/
structure CosState where
  Ti : Nat
  mult : Nat
  Tcur : Nat
  deriving Repr, DecidableEq

/-- train.py lines 216-218. -/
def cosInit : CosState := ⟨1, 2, 0⟩

/-- train.py lines 263-268, executed once at the end of each epoch, after all
of that epoch's batches:
`if Tcur % Ti == 0 and Tcur > 0: Ti *= mult; Tcur = 0 else: Tcur += 1`. -/
def cosStep (s : CosState) : CosState :=
  if s.Tcur % s.Ti = 0 ∧ 0 < s.Tcur then ⟨s.Ti * s.mult, s.mult, 0⟩
  else ⟨s.Ti, s.mult, s.Tcur + 1⟩

/-- The bookkeeping state after `n` end-of-epoch updates from the initial
state; epoch `n`'s batches are trained under `cosIter n`. -/
def cosIter : Nat → CosState
  | 0 => cosInit
  | n + 1 => cosStep (cosIter n)

/-- The schedule state read by the per-batch learning-rate computation of
epoch `e` (train.py line 231, `lr_scheduler(Tcur + epoch_progress, epochs=Ti)`):
line 231 runs before the end-of-epoch bookkeeping of lines 263-268, so every
batch of epoch `e` reads the state after exactly `e` bookkeeping updates. -/
def lrStateAt (e : Nat) : CosState := cosIter e

/-- Whether the end-of-epoch bookkeeping performed after epoch `e` takes the
restart branch of train.py line 264. -/
def restartAt (e : Nat) : Bool :=
  decide ((cosIter e).Tcur % (cosIter e).Ti = 0 ∧ 0 < (cosIter e).Tcur)

/-- Replay of the tolerance counter over a list of per-round improvement
flags: an improving round resets the counter to 0, a non-improving round
adds 1 (train.py lines 279 and 289). -/
def tolAfter : Nat → List Bool → Nat
  | t, [] => t
  | t, b :: rest => tolAfter (if b then 0 else t + 1) rest

/-- The number of evaluation rounds after the last improving round: the
length of the trailing all-`false` block of the improvement-flag trace. -/
def trailingNoImprove (tr : List Bool) : Nat :=
  (tr.reverse.takeWhile (fun b => !b)).length

/-- A batch yielded by `problem.iterate` (train.py line 54): node ids, the
target tensor, and the fractional epoch progress (ignored by `evaluate`). -/
structure Batch (Ids Target : Type) where
  ids : Ids
  targets : Target
  progress : ℚ

/-- The collaborator calls `evaluate` can be observed to make, recorded so
that statements about mutation are expressible: a gradient step would show
up as `backward` / `optStep` / `zeroGrad` entries (the calls `train_step`
makes at train.py lines 36-46), which `evaluate` never emits. -/
inductive ApiCall (Ids : Type) where
  | iterate (mode : String) (shuffle : Bool)
  | forward (ids : Ids) (train : Bool)
  | backward
  | optStep
  | zeroGrad

/-- The loop body of `evaluate` (train.py lines 54-59): accumulate the
batch's loss into the running sum and append the prediction and the target
to the collected lists. -/
def evalStep {Ids Target Pred : Type} (model : Ids → Bool → Pred)
    (loss_fn : Pred → Target → ℚ) (squeeze : Target → Target)
    (st : ℚ × List Pred × List Target) (b : Batch Ids Target) :
    ℚ × List Pred × List Target :=
  let pred := model b.ids false
  (st.1 + loss_fn pred (squeeze b.targets), st.2.1 ++ [pred], st.2.2 ++ [b.targets])

/-- train.py lines 50-61.  `model` stands for `model(ids, train=flag)`,
`squeeze` for `.squeeze()`, `metric_fn` for `problem.metric_fn` applied to
the vertically stacked target and prediction arrays (modelled as the lists
of per-batch arrays in iteration order); `batches` is the sequence produced
by `problem.iterate(mode, shuffle=False, batch_size)`.  Returns the summed
loss, the metrics of the whole split, and the trace of collaborator calls
made. -/
def evaluate {Ids Target Pred Metrics : Type} (model : Ids → Bool → Pred)
    (loss_fn : Pred → Target → ℚ) (squeeze : Target → Target)
    (metric_fn : List Target → List Pred → Metrics) (mode : String)
    (batches : List (Batch Ids Target)) :
    ℚ × Metrics × List (ApiCall Ids) :=
  let st := batches.foldl (evalStep model loss_fn squeeze) (0, [], [])
  (st.1, metric_fn st.2.2 st.2.1,
   ApiCall.iterate mode false :: batches.map (fun b => ApiCall.forward b.ids false))

/-! Helper lemmas about the tolerance-counter replay and the epoch loop. -/

theorem tolAfter_append (l1 l2 : List Bool) (t : Nat) :
    tolAfter t (l1 ++ l2) = tolAfter (tolAfter t l1) l2 := by
  induction l1 generalizing t with
  | nil => rfl
  | cons b rest ih => simp [tolAfter, ih]

theorem trailingNoImprove_nil : trailingNoImprove [] = 0 := rfl

theorem trailingNoImprove_append_true (tr : List Bool) :
    trailingNoImprove (tr ++ [true]) = 0 := by
  simp [trailingNoImprove]

theorem trailingNoImprove_append_false (tr : List Bool) :
    trailingNoImprove (tr ++ [false]) = trailingNoImprove tr + 1 := by
  simp [trailingNoImprove]

theorem trailingNoImprove_le_tolAfter (tr : List Bool) (t : Nat) :
    trailingNoImprove tr ≤ tolAfter t tr := by
  induction tr using List.reverseRecOn generalizing t with
  | nil => exact Nat.zero_le t
  | append_singleton tr b ih =>
    cases b with
    | false =>
      rw [trailingNoImprove_append_false, tolAfter_append]
      simpa [tolAfter] using Nat.succ_le_succ (ih t)
    | true =>
      rw [trailingNoImprove_append_true]
      exact Nat.zero_le _

theorem epochEval_tolerance_le (evalF : Nat → EvalRound) (li e : Nat)
    (s : TrainState) : (epochEval evalF li e s).1.tolerance ≤ s.tolerance + 1 := by
  by_cases hg : e % li = 0
  · by_cases hi : improves (evalF e).acc (evalF e).loss s.best_val_acc s.best_val_loss
    · simp [epochEval, evalUpdate, hg, hi]
    · simp [epochEval, evalUpdate, hg, hi]
  · simp [epochEval, hg]

theorem epochEval_tolAfter (evalF : Nat → EvalRound) (li e : Nat)
    (s : TrainState) :
    (epochEval evalF li e s).1.tolerance
      = tolAfter s.tolerance (epochEval evalF li e s).2 := by
  by_cases hg : e % li = 0
  · by_cases hi : improves (evalF e).acc (evalF e).loss s.best_val_acc s.best_val_loss
    · simp [epochEval, evalUpdate, hg, hi, tolAfter]
    · simp [epochEval, evalUpdate, hg, hi, tolAfter]
  · simp [epochEval, hg, tolAfter]

theorem runAux_epochs_le (evalF : Nat → EvalRound) (li tol : Nat) :
    ∀ fuel e s, (runAux evalF li tol fuel e s).2.1 ≤ fuel := by
  intro fuel
  induction fuel with
  | zero => intro e s; simp [runAux]
  | succ n ih =>
    intro e s
    by_cases h : tol < s.tolerance
    · simp [runAux, h]
    · simpa [runAux, h] using ih (e + 1) (epochEval evalF li e s).1

theorem runAux_stop (evalF : Nat → EvalRound) (li tol fuel e : Nat)
    (s : TrainState) (h : tol < s.tolerance) :
    runAux evalF li tol fuel e s = (s, 0, []) := by
  cases fuel with
  | zero => rfl
  | succ n => simp [runAux, h]

theorem runAux_tolerance_le (evalF : Nat → EvalRound) (li tol : Nat) :
    ∀ fuel e s, s.tolerance ≤ tol + 1 →
      (runAux evalF li tol fuel e s).1.tolerance ≤ tol + 1 := by
  intro fuel
  induction fuel with
  | zero => intro e s hs; simpa [runAux] using hs
  | succ n ih =>
    intro e s hs
    by_cases h : tol < s.tolerance
    · simpa [runAux, h] using hs
    · have hp : (epochEval evalF li e s).1.tolerance ≤ tol + 1 :=
        le_trans (epochEval_tolerance_le evalF li e s)
          (Nat.succ_le_succ (Nat.le_of_not_lt h))
      simpa [runAux, h] using ih (e + 1) (epochEval evalF li e s).1 hp

theorem runAux_tolAfter (evalF : Nat → EvalRound) (li tol : Nat) :
    ∀ fuel e s, (runAux evalF li tol fuel e s).1.tolerance
      = tolAfter s.tolerance (runAux evalF li tol fuel e s).2.2 := by
  intro fuel
  induction fuel with
  | zero => intro e s; simp [runAux, tolAfter]
  | succ n ih =>
    intro e s
    by_cases h : tol < s.tolerance
    · simp [runAux, h, tolAfter]
    · have := ih (e + 1) (epochEval evalF li e s).1
      simp only [runAux, h, if_false]
      rw [tolAfter_append, ← epochEval_tolAfter]
      exact this

theorem evalUpdate_best_isSome (e : Nat) (acc loss : ℚ) (s : TrainState)
    (h : s.best_result.isSome = true) :
    (evalUpdate e acc loss s).best_result.isSome = true := by
  by_cases hi : improves acc loss s.best_val_acc s.best_val_loss
  · simp [evalUpdate, hi]
  · simpa [evalUpdate, hi] using h

theorem epochEval_best_isSome (evalF : Nat → EvalRound) (li e : Nat)
    (s : TrainState) (h : s.best_result.isSome = true) :
    (epochEval evalF li e s).1.best_result.isSome = true := by
  by_cases hg : e % li = 0
  · simpa [epochEval, hg] using evalUpdate_best_isSome e _ _ s h
  · simpa [epochEval, hg] using h

theorem runAux_best_isSome (evalF : Nat → EvalRound) (li tol : Nat) :
    ∀ fuel e s, s.best_result.isSome = true →
      (runAux evalF li tol fuel e s).1.best_result.isSome = true := by
  intro fuel
  induction fuel with
  | zero => intro e s h; simpa [runAux] using h
  | succ n ih =>
    intro e s h
    by_cases hstop : tol < s.tolerance
    · simpa [runAux, hstop] using h
    · simpa [runAux, hstop] using
        ih (e + 1) (epochEval evalF li e s).1 (epochEval_best_isSome evalF li e s h)

theorem runAux_best_none_iff (evalF : Nat → EvalRound) (li tol : Nat) :
    ∀ fuel e s, ((runAux evalF li tol fuel e s).1.best_result = none ↔
      (s.best_result = none ∧
        ∀ b ∈ (runAux evalF li tol fuel e s).2.2, b = false)) := by
  intro fuel
  induction fuel with
  | zero => intro e s; simp [runAux]
  | succ n ih =>
    intro e s
    by_cases hstop : tol < s.tolerance
    · simp [runAux, hstop]
    · by_cases hg : e % li = 0
      · by_cases hi : improves (evalF e).acc (evalF e).loss s.best_val_acc s.best_val_loss
        · constructor
          · intro h
            exfalso
            have hsome : (runAux evalF li tol n (e + 1)
                (epochEval evalF li e s).1).1.best_result.isSome = true := by
              apply runAux_best_isSome
              simp [epochEval, evalUpdate, hg, hi]
            rw [show (runAux evalF li tol (n + 1) e s).1
                = (runAux evalF li tol n (e + 1) (epochEval evalF li e s).1).1 by
                  simp [runAux, hstop]] at h
            rw [h] at hsome
            simp at hsome
          · intro h
            exfalso
            have hmem : (true : Bool) ∈ (runAux evalF li tol (n + 1) e s).2.2 := by
              simp [runAux, hstop, epochEval, hg, hi]
            have := h.2 true hmem
            simp at this
        · have hbest : (epochEval evalF li e s).1.best_result = s.best_result := by
            simp [epochEval, evalUpdate, hg, hi]
          have htr : (runAux evalF li tol (n + 1) e s).2.2
              = false :: (runAux evalF li tol n (e + 1) (epochEval evalF li e s).1).2.2 := by
            simp [runAux, hstop, epochEval, hg, hi]
          have hfst : (runAux evalF li tol (n + 1) e s).1
              = (runAux evalF li tol n (e + 1) (epochEval evalF li e s).1).1 := by
            simp [runAux, hstop]
          rw [hfst, htr, ih (e + 1) (epochEval evalF li e s).1, hbest]
          simp
      · have hbest : (epochEval evalF li e s).1 = s := by
          simp [epochEval, hg]
        have htr : (runAux evalF li tol (n + 1) e s).2.2
            = (runAux evalF li tol n (e + 1) (epochEval evalF li e s).1).2.2 := by
          simp [runAux, hstop, epochEval, hg]
        have hfst : (runAux evalF li tol (n + 1) e s).1
            = (runAux evalF li tol n (e + 1) (epochEval evalF li e s).1).1 := by
          simp [runAux, hstop]
        rw [hfst, htr, ih (e + 1) (epochEval evalF li e s).1, hbest]

theorem runAux_sentinel (evalF : Nat → EvalRound) (li tol : Nat)
    (hall : ∀ e, (evalF e).acc = 0 ∧ 100000 ≤ (evalF e).loss) :
    ∀ fuel e s, s.best_val_acc = 0 → s.best_val_loss = 100000 →
      s.best_result = none →
      (runAux evalF li tol fuel e s).1.best_result = none := by
  intro fuel
  induction fuel with
  | zero => intro e s _ _ hb; simpa [runAux] using hb
  | succ n ih =>
    intro e s hacc hloss hb
    by_cases hstop : tol < s.tolerance
    · simpa [runAux, hstop] using hb
    · have hni : ¬ improves (evalF e).acc (evalF e).loss s.best_val_acc s.best_val_loss := by
        rintro (hlt | ⟨_, hlt⟩)
        · rw [hacc, (hall e).1] at hlt
          exact lt_irrefl _ hlt
        · rw [hloss] at hlt
          exact absurd hlt (not_lt.mpr (hall e).2)
      have hp : (epochEval evalF li e s).1.best_val_acc = 0 ∧
          (epochEval evalF li e s).1.best_val_loss = 100000 ∧
          (epochEval evalF li e s).1.best_result = none := by
        by_cases hg : e % li = 0
        · rw [hacc, hloss] at hni
          simp [epochEval, evalUpdate, hg, hni, hacc, hloss, hb]
        · simp [epochEval, hg, hacc, hloss, hb]
      simpa [runAux, hstop] using
        ih (e + 1) (epochEval evalF li e s).1 hp.1 hp.2.1 hp.2.2

theorem cosIter_inv (e : Nat) :
    0 < (cosIter e).Ti ∧ (cosIter e).mult = 2 ∧ (cosIter e).Tcur ≤ (cosIter e).Ti := by
  induction e with
  | zero => exact ⟨Nat.one_pos, rfl, Nat.zero_le 1⟩
  | succ n ih =>
    obtain ⟨hTi, hmult, hle⟩ := ih
    by_cases h : (cosIter n).Tcur % (cosIter n).Ti = 0 ∧ 0 < (cosIter n).Tcur
    · refine ⟨?_, ?_, ?_⟩ <;> simp [cosIter, cosStep, h, hmult]
      exact hTi
    · have hlt : (cosIter n).Tcur < (cosIter n).Ti := by
        rcases lt_or_eq_of_le hle with hlt | heq
        · exact hlt
        · exfalso
          apply h
          constructor
          · rw [heq]; exact Nat.mod_self _
          · rw [heq]; exact hTi
      refine ⟨?_, ?_, ?_⟩ <;> simp [cosIter, cosStep, h, hmult, hTi]
      exact hlt

set_option maxRecDepth 8000

theorem evaluate_foldl {Ids Target Pred : Type} (model : Ids → Bool → Pred)
    (loss_fn : Pred → Target → ℚ) (squeeze : Target → Target) :
    ∀ (batches : List (Batch Ids Target)) (l : ℚ) (ps : List Pred)
      (ts : List Target),
      batches.foldl (evalStep model loss_fn squeeze) (l, ps, ts)
        = (l + (batches.map
              (fun b => loss_fn (model b.ids false) (squeeze b.targets))).sum,
           ps ++ batches.map (fun b => model b.ids false),
           ts ++ batches.map (fun b => b.targets)) := by
  intro batches
  induction batches with
  | nil => intro l ps ts; simp
  | cons b rest ih =>
    intro l ps ts
    simp [evalStep, ih, add_assoc]

/-! Claim theorems. -/

/-- Claim C1: best-result replacement is a two-key lexicographic comparison:
the new round replaces the stored best iff its accuracy is strictly greater
than the best accuracy, or the accuracies are equal and its loss is strictly
smaller; higher accuracy dominates regardless of loss, and equal accuracy
with equal loss does not replace.  The last two conjuncts are the spec's
concrete examples (best accuracy 0.80, best loss 0.50). -/
theorem claim_c1 :
    (∀ (e : Nat) (acc loss : ℚ) (s : TrainState),
        improves acc loss s.best_val_acc s.best_val_loss →
        evalUpdate e acc loss s = ⟨0, loss, acc, some ⟨e, loss, acc⟩⟩) ∧
    (∀ (e : Nat) (acc loss : ℚ) (s : TrainState),
        ¬ improves acc loss s.best_val_acc s.best_val_loss →
        evalUpdate e acc loss s = { s with tolerance := s.tolerance + 1 }) ∧
    (∀ acc loss ba bl : ℚ, ba < acc → improves acc loss ba bl) ∧
    (∀ acc loss : ℚ, ¬ improves acc loss acc loss) ∧
    improves ((4 : ℚ)/5) ((2 : ℚ)/5) ((4 : ℚ)/5) ((1 : ℚ)/2) ∧
    ¬ improves ((79 : ℚ)/100) ((1 : ℚ)/10) ((4 : ℚ)/5) ((1 : ℚ)/2) := by
  refine ⟨?_, ?_, ?_, ?_, ?_, ?_⟩
  · intro e acc loss s h
    simp [evalUpdate, h]
  · intro e acc loss s h
    simp [evalUpdate, h]
  · intro acc loss ba bl h
    exact Or.inl h
  · rintro acc loss (h | ⟨_, h⟩) <;> exact lt_irrefl _ h
  · unfold improves
    norm_num
  · unfold improves
    norm_num

/-- Witness for C1: a concrete improving round against the sentinel. -/
theorem claim_c1_witness :
    evalUpdate 5 1 2 initState = ⟨0, 2, 1, some ⟨5, 2, 1⟩⟩ :=
  claim_c1.1 5 1 2 initState (by decide)

/-- Claim C2: the cosine bookkeeping, run once per epoch after its batches:
if the counter is an exact multiple of the period and nonzero, the period is
multiplied by the multiplier and the counter reset to 0; otherwise the
counter increments by 1; in particular a zero counter never restarts, for
any period.  The last conjunct ties the per-epoch state chain to one
bookkeeping step per epoch. -/
theorem claim_c2 :
    (∀ s : CosState, s.Tcur % s.Ti = 0 → 0 < s.Tcur →
        cosStep s = ⟨s.Ti * s.mult, s.mult, 0⟩) ∧
    (∀ s : CosState, ¬ (s.Tcur % s.Ti = 0 ∧ 0 < s.Tcur) →
        cosStep s = ⟨s.Ti, s.mult, s.Tcur + 1⟩) ∧
    (∀ Ti mult : Nat, cosStep ⟨Ti, mult, 0⟩ = ⟨Ti, mult, 1⟩) ∧
    (∀ e : Nat, cosIter (e + 1) = cosStep (cosIter e)) := by
  refine ⟨?_, ?_, ?_, ?_⟩
  · intro s h1 h2
    unfold cosStep
    rw [if_pos ⟨h1, h2⟩]
  · intro s h
    unfold cosStep
    rw [if_neg h]
  · intro Ti mult
    simp [cosStep]
  · intro e
    rfl

/-- Witness for C2: a restart step and an increment step at concrete states. -/
theorem claim_c2_witness :
    cosStep ⟨2, 2, 2⟩ = ⟨4, 2, 0⟩ ∧ cosStep ⟨4, 2, 1⟩ = ⟨4, 2, 2⟩ :=
  ⟨claim_c2.1 ⟨2, 2, 2⟩ rfl (by decide), claim_c2.2.1 ⟨4, 2, 1⟩ (by decide)⟩

/-- Claim C3: the epoch loop executes at most `epochs` epochs; the
early-stopping condition `tolerance > tol_limit` is checked at the start of
each epoch and halts the run before training that epoch (no epoch executed,
no further evaluation round); and the trailing block of non-improving
evaluation rounds of a run never exceeds `tol_limit + 1`. -/
theorem claim_c3 (evalF : Nat → EvalRound) (li tol epochs : Nat) :
    (run evalF li tol epochs).2.1 ≤ epochs ∧
    trailingNoImprove (run evalF li tol epochs).2.2 ≤ tol + 1 ∧
    (∀ fuel e s, tol < s.tolerance →
        runAux evalF li tol fuel e s = (s, 0, [])) := by
  refine ⟨runAux_epochs_le evalF li tol epochs 0 initState, ?_, ?_⟩
  · calc trailingNoImprove (run evalF li tol epochs).2.2
        ≤ tolAfter 0 (run evalF li tol epochs).2.2 :=
          trailingNoImprove_le_tolAfter _ 0
      _ = (run evalF li tol epochs).1.tolerance :=
          (runAux_tolAfter evalF li tol epochs 0 initState).symm
      _ ≤ tol + 1 :=
          runAux_tolerance_le evalF li tol epochs 0 initState (Nat.zero_le _)
  · intro fuel e s h
    exact runAux_stop evalF li tol fuel e s h

/-- Witness for C3: the loop halts immediately on a state already past the
tolerance limit. -/
theorem claim_c3_witness :
    runAux (fun _ => ⟨0, 0⟩) 1 2 7 0 ⟨5, 100000, 0, none⟩
      = (⟨5, 100000, 0, none⟩, 0, []) :=
  (claim_c3 (fun _ => ⟨0, 0⟩) 1 2 0).2.2 7 0 ⟨5, 100000, 0, none⟩ (by decide)

/-- Claim C4: the tolerance counter resets to 0 exactly when the best result
is replaced, and otherwise increments by exactly 1 per evaluation round
leaving the best-result fields untouched; on epochs with
`epoch % log_interval ≠ 0` no evaluation happens and the whole state is
unchanged. -/
theorem claim_c4 :
    (∀ (e : Nat) (acc loss : ℚ) (s : TrainState),
        improves acc loss s.best_val_acc s.best_val_loss →
        (evalUpdate e acc loss s).tolerance = 0 ∧
        (evalUpdate e acc loss s).best_result = some ⟨e, loss, acc⟩) ∧
    (∀ (e : Nat) (acc loss : ℚ) (s : TrainState),
        ¬ improves acc loss s.best_val_acc s.best_val_loss →
        (evalUpdate e acc loss s).tolerance = s.tolerance + 1 ∧
        (evalUpdate e acc loss s).best_result = s.best_result ∧
        (evalUpdate e acc loss s).best_val_acc = s.best_val_acc ∧
        (evalUpdate e acc loss s).best_val_loss = s.best_val_loss) ∧
    (∀ (evalF : Nat → EvalRound) (li e : Nat) (s : TrainState),
        e % li ≠ 0 → epochEval evalF li e s = (s, [])) := by
  refine ⟨?_, ?_, ?_⟩
  · intro e acc loss s h
    simp [evalUpdate, h]
  · intro e acc loss s h
    simp [evalUpdate, h]
  · intro evalF li e s h
    simp [epochEval, h]

/-- Witness for C4: a concrete non-improving round increments the counter
and leaves the best-result fields untouched. -/
theorem claim_c4_witness :
    (evalUpdate 3 0 200000 ⟨7, 100000, 0, none⟩).tolerance = 8 ∧
    (evalUpdate 3 0 200000 ⟨7, 100000, 0, none⟩).best_result = none ∧
    (evalUpdate 3 0 200000 ⟨7, 100000, 0, none⟩).best_val_acc = 0 ∧
    (evalUpdate 3 0 200000 ⟨7, 100000, 0, none⟩).best_val_loss = 100000 :=
  claim_c4.2.1 3 0 200000 ⟨7, 100000, 0, none⟩ (by decide)

/-- Counterexample to C5 as stated: after the restart at the end of epoch 4
(period now 4), the next restart comes 5 epochs later, at the end of epoch 9
(the counter passes 0,1,2,3,4), not 7 epochs later: the end of epoch 11
performs no restart, and by the end of epoch 10 the period has already
doubled to 8. -/
theorem claim_c5_counterexample :
    restartAt 4 = true ∧ restartAt 9 = true ∧ restartAt 11 = false ∧
    (cosIter 10).Ti = 8 := by decide

/-- Claim C5 amended: with period 1, multiplier 2 and counter 0, restarts
occur at the ends of epochs 1, 4, 9, 18 and 35 and nowhere else among the
first 36 epochs: after the first restart each cycle of period Ti spans
Ti + 1 epochs (gaps 3, 5, 9, 17 — not 3, 7, ...), the period doubling
1→2→4→8→16→32 across these 5 restarts, with no restart at the end of
epoch 0 (the first-epoch no-op). -/
theorem claim_c5_amended :
    restartAt 0 = false ∧ restartAt 1 = true ∧ restartAt 4 = true ∧
    restartAt 9 = true ∧ restartAt 18 = true ∧ restartAt 35 = true ∧
    (∀ e ∈ List.range 36, restartAt e = true →
        (e = 1 ∨ e = 4 ∨ e = 9 ∨ e = 18 ∨ e = 35)) ∧
    (cosIter 2).Ti = 2 ∧ (cosIter 5).Ti = 4 ∧ (cosIter 10).Ti = 8 ∧
    (cosIter 19).Ti = 16 ∧ (cosIter 36).Ti = 32 := by decide

/-- Witness for the amended C5: the restart at the end of epoch 18 is one of
the five listed restarts. -/
theorem claim_c5_amended_witness :
    18 = 1 ∨ 18 = 4 ∨ 18 = 9 ∨ 18 = 18 ∨ 18 = 35 :=
  claim_c5_amended.2.2.2.2.2.2.1 18 (by decide) (by decide)

/-- Counterexample to C6 as stated: every batch of epoch 1 is processed with
the period counter equal to the period length (Tcur = Ti = 1), i.e. outside
[0, Ti) for a whole epoch, not transiently. -/
theorem claim_c6_counterexample :
    (lrStateAt 1).Ti ≤ (lrStateAt 1).Tcur ∧ (lrStateAt 1).Ti = 1 ∧
    (lrStateAt 1).Tcur = 1 := by decide

/-- Claim C6 amended: at every per-batch learning-rate computation the
period counter satisfies Tcur ≤ Ti (so Tcur lies in the closed interval
[0, Ti]; the bound Ti is attained for the whole final epoch of each cycle,
as the counterexample shows). -/
theorem claim_c6_amended (e : Nat) : (lrStateAt e).Tcur ≤ (lrStateAt e).Ti :=
  (cosIter_inv e).2.2

/-- Claim C7: the evaluation pass iterates the split's batches in order with
the model invoked in non-training mode, returns the sum of the per-batch
losses, applies the metric function once to the stacked targets and
predictions of the whole split, and makes no gradient step: its collaborator
trace is exactly one unshuffled iterate call plus one non-training forward
per batch, with no backward, optimizer-step or zero-grad call, so the
model's trainable parameters are never written. -/
theorem claim_c7 {Ids Target Pred Metrics : Type} (model : Ids → Bool → Pred)
    (loss_fn : Pred → Target → ℚ) (squeeze : Target → Target)
    (metric_fn : List Target → List Pred → Metrics) (mode : String)
    (batches : List (Batch Ids Target)) :
    (evaluate model loss_fn squeeze metric_fn mode batches).1
      = (batches.map
          (fun b => loss_fn (model b.ids false) (squeeze b.targets))).sum ∧
    (evaluate model loss_fn squeeze metric_fn mode batches).2.1
      = metric_fn (batches.map (fun b => b.targets))
          (batches.map (fun b => model b.ids false)) ∧
    (evaluate model loss_fn squeeze metric_fn mode batches).2.2
      = ApiCall.iterate mode false
          :: batches.map (fun b => ApiCall.forward b.ids false) ∧
    ApiCall.backward ∉ (evaluate model loss_fn squeeze metric_fn mode batches).2.2 ∧
    ApiCall.optStep ∉ (evaluate model loss_fn squeeze metric_fn mode batches).2.2 ∧
    ApiCall.zeroGrad ∉ (evaluate model loss_fn squeeze metric_fn mode batches).2.2 := by
  refine ⟨?_, ?_, rfl, ?_, ?_, ?_⟩
  · simp [evaluate, evaluate_foldl]
  · simp [evaluate, evaluate_foldl]
  · simp [evaluate]
  · simp [evaluate]
  · simp [evaluate]

/-- Claim C8: at run completion the program emits the final best-result
record, and that record is the explicit absent (`None`) indication exactly
when no evaluation round of the run ever improved on the initial sentinel. -/
theorem claim_c8 (evalF : Nat → EvalRound) (li tol epochs : Nat) :
    finalOutput (run evalF li tol epochs)
      = (run evalF li tol epochs).1.best_result ∧
    (finalOutput (run evalF li tol epochs) = none ↔
      ∀ b ∈ (run evalF li tol epochs).2.2, b = false) := by
  refine ⟨rfl, ?_⟩
  have h := runAux_best_none_iff evalF li tol epochs 0 initState
  simpa [finalOutput, run, initState] using h

/-- Witness for C8: a run whose rounds never improve emits `none`. -/
theorem claim_c8_witness :
    finalOutput (run (fun _ => ⟨0, 200000⟩) 1 1 3) = none :=
  (claim_c8 (fun _ => ⟨0, 200000⟩) 1 1 3).2.mpr (by decide)

/-- Claim C9: the first evaluation round is compared against the fixed
sentinel (best accuracy 0, best loss 100000), so a round with accuracy 0 and
loss at least 100000 leaves the best result absent and increments the
tolerance counter, and a run all of whose rounds are like that ends with
`best_result = none`. -/
theorem claim_c9 (evalF : Nat → EvalRound) (li tol epochs : Nat)
    (hall : ∀ e, (evalF e).acc = 0 ∧ 100000 ≤ (evalF e).loss) :
    (∀ (e : Nat) (loss : ℚ) (s : TrainState),
        s.best_val_acc = 0 → s.best_val_loss = 100000 → 100000 ≤ loss →
        evalUpdate e 0 loss s = { s with tolerance := s.tolerance + 1 }) ∧
    (run evalF li tol epochs).1.best_result = none := by
  constructor
  · intro e loss s hacc hloss hge
    have hni : ¬ improves 0 loss s.best_val_acc s.best_val_loss := by
      rw [hacc, hloss]
      rintro (h | ⟨_, h⟩)
      · exact lt_irrefl _ h
      · exact absurd h (not_lt.mpr hge)
    simp [evalUpdate, hni]
  · exact runAux_sentinel evalF li tol hall epochs 0 initState rfl rfl rfl

/-- Witness for C9: a run whose every round has accuracy 0 and loss exactly
100000 never creates a best-result snapshot. -/
theorem claim_c9_witness :
    (run (fun _ => ⟨0, 100000⟩) 1 2 4).1.best_result = none :=
  (claim_c9 (fun _ => ⟨0, 100000⟩) 1 2 4 (fun _ => ⟨rfl, le_refl _⟩)).2

/-- Claim C10: for every log interval ≥ 1, epoch 0 passes the
`epoch % log_interval == 0` gate, so the first epoch always runs a full
evaluation round and any run of at least one epoch produces at least one
evaluation round: the first evaluation is never skipped. -/
theorem claim_c10 (li : Nat) (h : 1 ≤ li) :
    0 % li = 0 ∧
    (∀ (evalF : Nat → EvalRound) (s : TrainState),
        epochEval evalF li 0 s
          = (evalUpdate 0 (evalF 0).acc (evalF 0).loss s,
             [decide (improves (evalF 0).acc (evalF 0).loss
                s.best_val_acc s.best_val_loss)])) ∧
    (∀ (evalF : Nat → EvalRound) (tol epochs : Nat),
        1 ≤ epochs → (run evalF li tol epochs).2.2 ≠ []) := by
  refine ⟨Nat.zero_mod li, ?_, ?_⟩
  · intro evalF s
    simp [epochEval]
  · intro evalF tol epochs he
    obtain ⟨n, rfl⟩ : ∃ n, epochs = n + 1 :=
      ⟨epochs - 1, (Nat.succ_pred_eq_of_pos he).symm⟩
    simp [run, runAux, epochEval, initState]

/-- Witness for C10: a one-epoch run with log interval 3 still evaluates. -/
theorem claim_c10_witness :
    (run (fun _ => ⟨1, 5⟩) 3 0 1).2.2 ≠ [] :=
  (claim_c10 3 (by decide)).2.2 (fun _ => ⟨1, 5⟩) 0 1 (by decide)

end TrainPy
